import Mathlib

/- Shallow embedding of the `duet_charter_lib` crate (files `chart.rs` and
`phrases.rs`): the chart decoder and the lyric phrase segmenter.  Rust `u32`
and `u64` values are embedded as `Nat` with explicit bounds checks where the
source performs a fallible parse, and with an explicit `% 2 ^ 32` where the
source performs wrapping arithmetic (`u32::pow`).  Rust strings are embedded
as `String` / `List Char`; the two regular expressions of `Chart::new` are
embedded as executable leftmost-match scanners over the characters of one
line (the patterns contain no construct that can match across a line break,
and backtracking cannot help them, so maximal munch is exact). -/

abbrev Chars := List Char

/-- Splits a character list on every separator selected by `p`, keeping empty
pieces, as Rust's `str::split` does (`"a}}b"` gives `["a", "", "b"]`). -/
def splitOnP (p : Char → Bool) : Chars → List Chars
  | [] => [[]]
  | c :: rest =>
    let r := splitOnP p rest
    if p c then [] :: r
    else
      match r with
      | [] => [[c]]
      | h :: t => (c :: h) :: t

/-- Rust `str::split_once(' ')`: splits at the first space, or `none` when the
string contains no space. -/
def splitOnceSpace : Chars → Option (Chars × Chars)
  | [] => none
  | c :: rest =>
    if c = ' ' then some ([], rest)
    else (splitOnceSpace rest).map (fun pr => (c :: pr.1, pr.2))

def isWsChar (c : Char) : Bool :=
  c = ' ' || c = '\t' || c = '\n' || c = '\r'

/-- Rust `str::trim` (restricted to the ASCII whitespace that can occur in the
captured fields of this format). -/
def trimChars (l : Chars) : Chars :=
  ((l.dropWhile isWsChar).reverse.dropWhile isWsChar).reverse

def isAsciiDigit (c : Char) : Bool := '0' ≤ c && c ≤ '9'

def digitsVal (l : Chars) : Nat :=
  l.foldl (fun acc c => acc * 10 + (c.toNat - 48)) 0

/-- Rust `str::parse::<uN>()` after `trim()`: an optional leading `+`, then at
least one decimal digit, nothing else, and the value must fit the type, whose
exclusive upper bound is `bound`. -/
def parseUInt (bound : Nat) (l : Chars) : Option Nat :=
  let t := trimChars l
  let t2 := match t with
    | '+' :: r => r
    | _ => t
  if !t2.isEmpty && t2.all isAsciiDigit then
    let v := digitsVal t2
    if v < bound then some v else none
  else none

def parseU32 : Chars → Option Nat := parseUInt (2 ^ 32)

def parseU64 : Chars → Option Nat := parseUInt (2 ^ 64)

/-- The `LyricEvent` enum of `chart.rs`. -/
inductive LyricEvent where
  | PhraseStart (timestamp : Nat)
  | PhraseEnd (timestamp : Nat)
  | Lyric (timestamp : Nat) (text : String)
  | Section (timestamp : Nat) (text : String)
  | DuetPhraseStart (timestamp : Nat)
  | DuetPhraseEnd (timestamp : Nat)
  | DuetLyric (timestamp : Nat) (text : String)
  | OtherLyricEvent (code : String) (timestamp : Nat) (content : String)
deriving DecidableEq, Repr

/-- The `KeyPressEvent` enum of `chart.rs`. -/
inductive KeyPressEvent where
  | Note (timestamp : Nat) (duration : Nat) (key : Nat)
  | Special (timestamp : Nat) (special_type : Nat) (duration : Nat)
  | TextEvent (timestamp : Nat) (content : String)
  | OtherKeyPress (code : String) (timestamp : Nat) (content : String)
deriving DecidableEq, Repr

/-- The `TempoEvent` enum of `chart.rs`. -/
inductive TempoEvent where
  | Beat (timestamp : Nat) (milli_bpm : Nat)
  | TimeSignature (timestamp : Nat) (time_signature : Nat × Nat)
  | Anchor (timestamp : Nat) (song_microseconds : Nat)
  | OtherTempoEvent (code : String) (timestamp : Nat) (content : String)
deriving DecidableEq, Repr

/-- `TimestampedEvent::get_timestamp` for `LyricEvent`. -/
def LyricEvent.get_timestamp : LyricEvent → Nat
  | .PhraseStart timestamp => timestamp
  | .PhraseEnd timestamp => timestamp
  | .Lyric timestamp _ => timestamp
  | .Section timestamp _ => timestamp
  | .DuetPhraseStart timestamp => timestamp
  | .DuetPhraseEnd timestamp => timestamp
  | .DuetLyric timestamp _ => timestamp
  | .OtherLyricEvent _ timestamp _ => timestamp

def isPhraseStartEv : LyricEvent → Bool
  | .PhraseStart _ => true
  | _ => false

def isPhraseEndEv : LyricEvent → Bool
  | .PhraseEnd _ => true
  | _ => false

def isDuetPhraseStartEv : LyricEvent → Bool
  | .DuetPhraseStart _ => true
  | _ => false

def isDuetEv : LyricEvent → Bool
  | .DuetPhraseStart _ => true
  | .DuetPhraseEnd _ => true
  | .DuetLyric _ _ => true
  | _ => false

def isSectionOrOtherEv : LyricEvent → Bool
  | .Section _ _ => true
  | .OtherLyricEvent _ _ _ => true
  | _ => false

def isLyricEv : LyricEvent → Bool
  | .Lyric _ _ => true
  | _ => false

/-- The `PhraseLyric` struct of `phrases.rs`. -/
structure PhraseLyric where
  timestamp : Nat
  text : String
deriving DecidableEq, Repr

/-- The `Phrase` struct of `phrases.rs`. -/
structure Phrase where
  start_timestamp : Nat
  end_timestamp : Nat
  lyrics : List PhraseLyric
deriving DecidableEq, Repr

/-- Rust `str::ends_with(c)` for a single character. -/
def endsWithChar (c : Char) (s : String) : Bool :=
  match s.data.getLast? with
  | some d => d = c
  | none => false

/-- Removes the last character, as `strip_suffix` does on a match. -/
def dropLastChar (s : String) : String := s.data.dropLast.asString

/-- The per-syllable step of `impl Display for Phrase`: a trailing hyphen is
stripped, otherwise a space is appended. -/
def syllableRender (x : String) : String :=
  if endsWithChar '-' x then dropLastChar x else x ++ " "

/-- The `clean_line` computed by `impl Display for Phrase`: the syllables
joined by `syllableRender`, with one trailing space stripped. -/
def phraseText (lyrics : List PhraseLyric) : String :=
  let line := lyrics.foldl (fun acc l => acc ++ syllableRender l.text) ""
  if endsWithChar ' ' line then dropLastChar line else line

/-- The full `Display` output of a `Phrase`. -/
def phraseDisplay (p : Phrase) : String :=
  "from " ++ toString p.start_timestamp ++ " to " ++ toString p.end_timestamp
    ++ ", phrase: " ++ phraseText p.lyrics

/-- Concatenation of the `Display` output of a list of phrases, as in
`map(ToString::to_string).collect::<String>()`. -/
def renderAll : List Phrase → String
  | [] => ""
  | p :: rest => phraseDisplay p ++ renderAll rest

def startOf : LyricEvent → Option Nat
  | .PhraseStart timestamp => some timestamp
  | _ => none

def toPhraseLyric : LyricEvent → Option PhraseLyric
  | .Lyric timestamp text => some ⟨timestamp, text⟩
  | _ => none

/-- The lyric filter of `parse_phrases_from`:
`(high.is_none() || high.unwrap_or(&0) > t) && t >= low`. -/
def inWindow (low : Nat) (high : Option Nat) (t : Nat) : Bool :=
  (high.isNone || high.getD 0 > t) && t ≥ low

/-- The predicate of the `find` locating an explicit phrase end:
`(high.is_none() || high.unwrap_or(&0) >= ts) && ts > low && is PhraseEnd`. -/
def endSearchPred (low : Nat) (high : Option Nat) (x : LyricEvent) : Bool :=
  (high.isNone || high.getD 0 ≥ x.get_timestamp) && x.get_timestamp > low
    && isPhraseEndEv x

/-- The body of the `map` in `LyricPhraseCollection::parse_phrases_from`,
building the phrase with index `i` and start `low`. -/
def mkPhrase (lyric_events : List LyricEvent) (timestamps : List Nat)
    (i : Nat) (low : Nat) : Phrase :=
  let high := timestamps[i + 1]?
  let lyrics :=
    (lyric_events.filter (fun e => inWindow low high e.get_timestamp)).filterMap
      toPhraseLyric
  let maybe_timestamp := lyric_events.find? (endSearchPred low high)
  let end_timestamp :=
    match maybe_timestamp with
    | some x => x.get_timestamp
    | none =>
      match high with
      | some y => y
      | none =>
        match lyrics.getLast? with
        | some z => z.timestamp + 1
        | none => low + 1
  ⟨low, end_timestamp, lyrics⟩

/-- `LyricPhraseCollection::parse_phrases_from`. -/
def parse_phrases_from (lyric_events : List LyricEvent) : List Phrase :=
  let timestamps := lyric_events.filterMap startOf
  timestamps.enum.map (fun pr => mkPhrase lyric_events timestamps pr.1 pr.2)

/-- The duet projection of `LyricPhraseCollection::new`: duet events are
remapped to their plain counterparts, every other event is dropped. -/
def duetRemap : LyricEvent → Option LyricEvent
  | .DuetPhraseStart timestamp => some (.PhraseStart timestamp)
  | .DuetPhraseEnd timestamp => some (.PhraseEnd timestamp)
  | .DuetLyric timestamp text => some (.Lyric timestamp text)
  | _ => none

/-- The `LyricPhraseCollection` struct of `phrases.rs`. -/
structure LyricPhraseCollection where
  main_phrases : List Phrase
  duet_phrases : List Phrase
deriving DecidableEq, Repr

/-- `LyricPhraseCollection::new`. -/
def LyricPhraseCollection.new (lyrics_events : List LyricEvent) :
    LyricPhraseCollection :=
  let duet_only := lyrics_events.filterMap duetRemap
  { main_phrases := parse_phrases_from lyrics_events
    duet_phrases := parse_phrases_from duet_only }

/- The chart decoder (`chart.rs`). -/

def exOk {ε α : Type} : Except ε α → Bool
  | .ok _ => true
  | .error _ => false

def exD {ε α : Type} (d : α) : Except ε α → α
  | .ok a => a
  | .error _ => d

/-- Rust regex `\w` (word character), ASCII range. -/
def isWordChar (c : Char) : Bool := c.isAlphanum || c = '_'

def isLineBreakChar (c : Char) : Bool := c = '\n' || c = '\r'

/-- Attempts to match the line regex
`" {2}(?P<timestamp>\d+) = (?P<type>\w+) (?P<content>[^\n\r]+)"` at the head
of a line; the content runs to the end of the line, which contains no line
break.  Greedy `\d+`/`\w+` need no backtracking because the character after
each run can never also match the run. -/
def matchAt : Chars → Option (Chars × Chars × Chars)
  | ' ' :: ' ' :: r1 =>
    let ds := r1.takeWhile isAsciiDigit
    let r2 := r1.dropWhile isAsciiDigit
    if ds.isEmpty then none
    else
      match r2 with
      | ' ' :: '=' :: ' ' :: r3 =>
        let ws := r3.takeWhile isWordChar
        let r4 := r3.dropWhile isWordChar
        if ws.isEmpty then none
        else
          match r4 with
          | ' ' :: content => if content.isEmpty then none else some (ds, ws, content)
          | _ => none
      | _ => none
  | _ => none

/-- The leftmost match of the line regex within one line, as produced by
`Regex::captures_iter` (at most one match per line, since the content capture
extends to the end of the line). -/
def lineMatch : Chars → Option (Chars × Chars × Chars)
  | [] => none
  | c :: rest =>
    match matchAt (c :: rest) with
    | some r => some r
    | none => lineMatch rest

/-- Attempts to match the property regex
`" {2}(?P<property>[^ =]+) = (?P<content>[^\n\r]+)"` at the head of a line. -/
def propMatchAt : Chars → Option (Chars × Chars)
  | ' ' :: ' ' :: r1 =>
    let ks := r1.takeWhile (fun c => c ≠ ' ' && c ≠ '=')
    let r2 := r1.dropWhile (fun c => c ≠ ' ' && c ≠ '=')
    if ks.isEmpty then none
    else
      match r2 with
      | ' ' :: '=' :: ' ' :: content =>
        if content.isEmpty then none else some (ks, content)
      | _ => none
  | _ => none

def propLineMatch : Chars → Option (Chars × Chars)
  | [] => none
  | c :: rest =>
    match propMatchAt (c :: rest) with
    | some r => some r
    | none => propLineMatch rest

/-- Attempts to match the header regex `\[(?P<header>[^]]+)]` at a position;
on a match, `Chart::new` strips every bracket from the matched text. -/
def headerMatchAt : Chars → Option Chars
  | '[' :: r =>
    let pre := r.takeWhile (fun c => c ≠ ']')
    let rest := r.dropWhile (fun c => c ≠ ']')
    if pre.isEmpty then none
    else
      match rest with
      | ']' :: _ => some (pre.filter (fun c => c ≠ '['))
      | _ => none
  | _ => none

/-- `header_regex.find(section)` followed by the bracket stripping: the
leftmost match anywhere in the section. -/
def headerFind : Chars → Option Chars
  | [] => none
  | c :: rest =>
    match headerMatchAt (c :: rest) with
    | some h => some h
    | none => headerFind rest

def errNum (s : Chars) : String := "invalid number " ++ s.asString

/-- One `SyncTrack` line of `Chart::decode_tempo_map`, from the three regex
captures.  The `TS` arm splits the content on spaces; the first field is the
numerator, the optional second field is the exponent of the denominator
(default 2, also used when the second field fails to parse); `u32::pow`
wraps modulo `2 ^ 32`. -/
def decodeTempoLine (tsStr ty content : Chars) : Except String TempoEvent :=
  match parseU32 tsStr with
  | none => .error (errNum tsStr)
  | some timestamp =>
    if ty = ['A'] then
      match parseU64 content with
      | none => .error (errNum content)
      | some song_microseconds => .ok (.Anchor timestamp song_microseconds)
    else if ty = ['B'] then
      match parseU64 content with
      | none => .error (errNum content)
      | some milli_bpm => .ok (.Beat timestamp milli_bpm)
    else if ty = ['T', 'S'] then
      match splitOnP (fun c => c = ' ') content with
      | [] => .error ("No numerator found in " ++ content.asString)
      | pre_numerator :: rest =>
        match parseU32 pre_numerator with
        | none => .error (errNum pre_numerator)
        | some numerator =>
          let n := match rest with
            | [] => 2
            | x :: _ => (parseU32 x).getD 2
          .ok (.TimeSignature timestamp (numerator, 2 ^ n % 2 ^ 32))
    else .ok (.OtherTempoEvent ty.asString timestamp content.asString)

/-- One `Events` line of `Chart::decode_lyrics`, from the three regex
captures: quotes are removed from the content, which is then split at the
first space into a subtype and the text. -/
def decodeLyricLine (tsStr ty content0 : Chars) : Except String LyricEvent :=
  match parseU32 tsStr with
  | none => .error (errNum tsStr)
  | some timestamp =>
    let content := content0.filter (fun c => c ≠ '\"')
    let pr := match splitOnceSpace content with
      | some q => q
      | none => (content, ([] : Chars))
    let ctype := pr.1
    let text := pr.2.asString
    .ok (if ty = ['E'] && ctype = "section".data then .Section timestamp text
      else if ty = ['E'] && ctype = "phrase_start".data then .PhraseStart timestamp
      else if ty = ['E'] && ctype = "lyric".data then .Lyric timestamp text
      else if ty = ['E'] && ctype = "phrase_end".data then .PhraseEnd timestamp
      else if ty = ['E'] && ctype = "duet_phrase_start".data then
        .DuetPhraseStart timestamp
      else if ty = ['E'] && ctype = "duet_lyric".data then .DuetLyric timestamp text
      else if ty = ['E'] && ctype = "duet_phrase_end".data then
        .DuetPhraseEnd timestamp
      else .OtherLyricEvent ty.asString timestamp content.asString)

/-- One line of `Chart::decode_key_presses`, from the three regex captures:
`N` and `S` lines require a second space-separated field (the duration). -/
def decodeKeyPressLine (tsStr ty content : Chars) : Except String KeyPressEvent :=
  match parseU32 tsStr with
  | none => .error (errNum tsStr)
  | some timestamp =>
    if ty = ['N'] then
      match splitOnceSpace content with
      | none => .error "No duration found"
      | some (keyStr, durStr) =>
        match parseU32 keyStr with
        | none => .error (errNum keyStr)
        | some key =>
          match parseU32 durStr with
          | none => .error (errNum durStr)
          | some duration => .ok (.Note timestamp duration key)
    else if ty = ['S'] then
      match splitOnceSpace content with
      | none => .error "No duration found"
      | some (typeStr, durStr) =>
        match parseU32 typeStr with
        | none => .error (errNum typeStr)
        | some special_type =>
          match parseU32 durStr with
          | none => .error (errNum durStr)
          | some duration => .ok (.Special timestamp special_type duration)
    else if ty = ['E'] then .ok (.TextEvent timestamp content.asString)
    else .ok (.OtherKeyPress ty.asString timestamp content.asString)

/-- The line-regex matches of one section, in order: one candidate per line
of the section. -/
def lineMatches (sec : Chars) : List (Chars × Chars × Chars) :=
  (splitOnP isLineBreakChar sec).filterMap lineMatch

/-- `collect::<Result<Vec<_>>>`: stops at the first error. -/
def collectE {α β : Type} (f : α → Except String β) :
    List α → Except String (List β)
  | [] => .ok []
  | a :: rest =>
    match f a with
    | .error e => .error e
    | .ok b => (collectE f rest).map (fun l => b :: l)

def decodeTempoSection (sec : Chars) : Except String (List TempoEvent) :=
  collectE (fun m => decodeTempoLine m.1 m.2.1 m.2.2) (lineMatches sec)

def decodeLyricSection (sec : Chars) : Except String (List LyricEvent) :=
  collectE (fun m => decodeLyricLine m.1 m.2.1 m.2.2) (lineMatches sec)

def decodeKeyPressSection (sec : Chars) : Except String (List KeyPressEvent) :=
  collectE (fun m => decodeKeyPressLine m.1 m.2.1 m.2.2) (lineMatches sec)

/-- `Chart::decode_properties` for one `Song` section; it cannot fail. -/
def decodeProperties (sec : Chars) : List (String × String) :=
  ((splitOnP isLineBreakChar sec).filterMap propLineMatch).map
    (fun pr => (pr.1.asString, pr.2.asString))

/-- The `Chart` struct; both `HashMap`s are embedded as lookup functions. -/
structure RChart where
  properties : String → Option String
  lyrics : List LyricEvent
  tempo_map : List TempoEvent
  key_presses : String → Option (List KeyPressEvent)

def emptyChart : RChart :=
  { properties := fun _ => none
    lyrics := []
    tempo_map := []
    key_presses := fun _ => none }

/-- `HashMap::insert`: later insertions overwrite earlier ones. -/
def hmInsert {α : Type} (m : String → Option α) (k : String) (v : α) :
    String → Option α :=
  fun q => if q = k then some v else m q

/-- One iteration of the section loop of `Chart::new`: find the header,
dispatch on it, and update the chart under construction. -/
def sectionStep (st : RChart) (sec : Chars) : Except String RChart :=
  match headerFind sec with
  | none => .ok st
  | some h =>
    let hs := h.asString
    if hs = "Song" then
      .ok { st with
        properties :=
          (decodeProperties sec).foldl (fun m pr => hmInsert m pr.1 pr.2)
            st.properties }
    else if hs = "SyncTrack" then
      match decodeTempoSection sec with
      | .error e => .error e
      | .ok l => .ok { st with tempo_map := st.tempo_map ++ l }
    else if hs = "Events" then
      match decodeLyricSection sec with
      | .error e => .error e
      | .ok l => .ok { st with lyrics := st.lyrics ++ l }
    else
      match decodeKeyPressSection sec with
      | .error e => .error e
      | .ok l => .ok { st with key_presses := hmInsert st.key_presses hs l }

def runSections (st : RChart) : List Chars → Except String RChart
  | [] => .ok st
  | s :: rest =>
    match sectionStep st s with
    | .error e => .error e
    | .ok st2 => runSections st2 rest

/-- The sections of a chart file: the text split on every `}`. -/
def sectionsOf (file : String) : List Chars :=
  splitOnP (fun c => c = '\x7d') file.data

/-- `Chart::new`. -/
def chartNew (file : String) : Except String RChart :=
  runSections emptyChart (sectionsOf file)

/- Concrete inputs used by individual claims. -/

/-- The six-line `[Events]` scenario of spec section 8. -/
def scenarioText : String :=
  "[Events]\n\x7b\n  10 = E \"phrase_start\"\n  12 = E \"lyric\" \"Hel-\"\n  14 = E \"lyric\" \"lo\"\n  16 = E \"phrase_end\"\n  20 = E \"phrase_start\"\n  22 = E \"lyric\" \"World\"\n\x7d"

def scenarioLyrics : List LyricEvent :=
  exD [] ((chartNew scenarioText).map RChart.lyrics)

/-- The malformed-input scenario of spec section 8: a `SyncTrack` section
whose only event line is `  100 = TS`. -/
def c4text : String := "[SyncTrack]\n\x7b\n  100 = TS\n\x7d"

/-- A lyric sequence whose `PhraseStart` timestamps are out of order. -/
def c3evs : List LyricEvent :=
  [.PhraseStart 10, .Lyric 12 "a", .PhraseStart 20, .PhraseStart 5]

/-- A lyric sequence with a `Lyric` event but no `PhraseStart`. -/
def c5evs : List LyricEvent := [.Lyric 0 "a"]

/-- A well-ordered two-phrase lyric sequence. -/
def c3wevs : List LyricEvent :=
  [.PhraseStart 2, .Lyric 3 "a", .PhraseEnd 4, .PhraseStart 6, .Lyric 7 "b"]

/-- A key-press track section whose `N` line has no duration field. -/
def c9file : String := "[ExpertSingle]\n\x7b\n  100 = N 5\n\x7d"

def c9sec : Chars := "[ExpertSingle]\n\x7b\n  100 = N 5\n".data

/-- A file with two `[Events]` sections, two `[SyncTrack]` sections, and two
`[ExpertSingle]` key-press sections. -/
def c10file : String :=
  "[SyncTrack]\n\x7b\n  0 = B 120000\n\x7d\n[Events]\n\x7b\n  10 = E \"phrase_start\"\n\x7d\n[ExpertSingle]\n\x7b\n  5 = N 1 2\n\x7d\n[SyncTrack]\n\x7b\n  7 = B 90000\n\x7d\n[Events]\n\x7b\n  30 = E \"lyric\" \"la\"\n\x7d\n[ExpertSingle]\n\x7b\n  9 = N 3 4\n\x7d"

def c10chart : RChart := exD emptyChart (chartNew c10file)

/- Observation functions used to state how duplicate sections combine. -/

def flatMapL {α β : Type} (f : α → List β) : List α → List β
  | [] => []
  | a :: l => f a ++ flatMapL f l

/-- The lyric events a section contributes to `Chart::new` (empty unless its
header is `Events`). -/
def lyricContrib (sec : Chars) : List LyricEvent :=
  match headerFind sec with
  | none => []
  | some h => if h.asString = "Events" then exD [] (decodeLyricSection sec) else []

/-- The tempo events a section contributes to `Chart::new` (empty unless its
header is `SyncTrack`). -/
def tempoContrib (sec : Chars) : List TempoEvent :=
  match headerFind sec with
  | none => []
  | some h =>
    if h.asString = "SyncTrack" then exD [] (decodeTempoSection sec) else []

/-- Whether a section's stripped header equals the given track name. -/
def isTrackSection (name : String) (sec : Chars) : Bool :=
  match headerFind sec with
  | none => false
  | some h => h.asString = name

/-- The last section of the list whose header is the given track name. -/
def lastTrackSection (name : String) : List Chars → Option Chars
  | [] => none
  | s :: rest =>
    match lastTrackSection name rest with
    | some r => some r
    | none => if isTrackSection name s then some s else none

/- Theorems. -/

set_option maxRecDepth 16000

/-- C2: decoding the six-line `[Events]` scenario and segmenting the decoded
lyric list yields exactly two main phrases: one from timestamp 10 to 16
rendering `"Hello"` (the trailing hyphen of `"Hel-"` suppresses the joining
space), and one from 20 to 23 (one tick past the last lyric at 22) rendering
`"World"`. -/
theorem c2_scenario :
    exOk (chartNew scenarioText) = true
  ∧ scenarioLyrics =
      [.PhraseStart 10, .Lyric 12 "Hel-", .Lyric 14 "lo", .PhraseEnd 16,
       .PhraseStart 20, .Lyric 22 "World"]
  ∧ ((LyricPhraseCollection.new scenarioLyrics).main_phrases).map
      (fun p => (p.start_timestamp, p.end_timestamp, phraseText p.lyrics)) =
      [(10, 16, "Hello"), (20, 23, "World")] := by
  decide

/-- C4: decoding a chart whose `SyncTrack` section contains the line
`  100 = TS` succeeds and returns an empty tempo map: the line regex requires
a content field after the type, so the line never matches and is silently
dropped, and the `"No numerator found"` error of `decode_tempo_map` is never
reached.  This contradicts the claimed field error. -/
theorem c4_ts_line_skipped :
    exOk (chartNew c4text) = true
  ∧ exD [] ((chartNew c4text).map RChart.tempo_map) = [] := by
  decide

theorem parse_phrases_from_length (evs : List LyricEvent) :
    (parse_phrases_from evs).length = (evs.filterMap startOf).length := by
  simp [parse_phrases_from]

theorem length_filterMap_countP {α β : Type} (f : α → Option β) (p : α → Bool)
    (hf : ∀ a, (f a).isSome = p a) (l : List α) :
    (l.filterMap f).length = l.countP p := by
  induction l with
  | nil => rfl
  | cons a rest ih =>
    rw [List.filterMap_cons, List.countP_cons, ← hf a]
    cases h : f a <;> simp [h, ih]

theorem length_filterMap_startOf (l : List LyricEvent) :
    (l.filterMap startOf).length = l.countP isPhraseStartEv :=
  length_filterMap_countP startOf isPhraseStartEv (fun a => by cases a <;> rfl) l

theorem length_filterMap_duetStart (l : List LyricEvent) :
    (l.filterMap (fun e => (duetRemap e).bind startOf)).length =
      l.countP isDuetPhraseStartEv :=
  length_filterMap_countP _ isDuetPhraseStartEv (fun a => by cases a <;> rfl) l

/-- C1: `LyricPhraseCollection::new` produces exactly one main phrase per
`PhraseStart` event of the input and exactly one duet phrase per
`DuetPhraseStart` event of the input. -/
theorem c1_phrase_count (evs : List LyricEvent) :
    ((LyricPhraseCollection.new evs).main_phrases).length =
      evs.countP isPhraseStartEv
  ∧ ((LyricPhraseCollection.new evs).duet_phrases).length =
      evs.countP isDuetPhraseStartEv := by
  constructor
  · show (parse_phrases_from evs).length = _
    rw [parse_phrases_from_length, length_filterMap_startOf]
  · show (parse_phrases_from (evs.filterMap duetRemap)).length = _
    rw [parse_phrases_from_length, List.filterMap_filterMap,
      length_filterMap_duetStart]

/-- C8: the phrase segmenter is total (the embedding of
`LyricPhraseCollection::new` returns a plain `LyricPhraseCollection`, not a
fallible result, mirroring the absence of any fallible operation in the
source): the empty input yields the empty collection, and any input with
zero `PhraseStart` events yields no main phrase. -/
theorem c8_segmenter_total :
    (LyricPhraseCollection.new []).main_phrases = []
  ∧ (LyricPhraseCollection.new []).duet_phrases = []
  ∧ ∀ evs : List LyricEvent, evs.countP isPhraseStartEv = 0 →
      (LyricPhraseCollection.new evs).main_phrases = [] := by
  refine ⟨rfl, rfl, fun evs h => ?_⟩
  have hl : ((LyricPhraseCollection.new evs).main_phrases).length =
      evs.countP isPhraseStartEv := by
    show (parse_phrases_from evs).length = _
    rw [parse_phrases_from_length, length_filterMap_startOf]
  exact List.eq_nil_of_length_eq_zero (hl.trans h)

theorem c8_segmenter_total_witness :
    (LyricPhraseCollection.new
      [LyricEvent.Lyric 5 "x", LyricEvent.Section 1 "s"]).main_phrases = [] :=
  c8_segmenter_total.2.2 [LyricEvent.Lyric 5 "x", LyricEvent.Section 1 "s"]
    (by decide)

/-- C3 fails as stated: in `c3evs` the `PhraseStart` timestamps arrive out of
order (10, 20, 5), and the single `Lyric` event at timestamp 12 is assigned
both to the phrase starting at 10 (window `[10, 20)`) and to the last phrase
starting at 5 (window `[5, ∞)`). -/
theorem c3_counterexample :
    ((LyricPhraseCollection.new c3evs).main_phrases).map Phrase.lyrics =
      [[⟨12, "a"⟩], [], [⟨12, "a"⟩]]
  ∧ c3evs.countP isLyricEv = 1 := by
  decide

/-- C5 fails as stated: the input `[Lyric 0 "a"]` contains an event other
than `Section`/`OtherLyricEvent`, yet it has no `PhraseStart`, so there is no
phrase and the concatenated rendering of `main_phrases` is empty. -/
theorem c5_counterexample :
    renderAll (LyricPhraseCollection.new c5evs).main_phrases = ""
  ∧ c5evs.all isSectionOrOtherEv = false := by
  decide

theorem renderAll_cons_ne_empty (p : Phrase) (ps : List Phrase) :
    renderAll (p :: ps) ≠ "" := by
  intro h
  have hl := congrArg String.length h
  simp only [renderAll, phraseDisplay, String.length_append] at hl
  have h5 : "from ".length = 5 := rfl
  have h0 : "".length = 0 := rfl
  rw [h5, h0] at hl
  omega

theorem new_main_length (evs : List LyricEvent) :
    ((LyricPhraseCollection.new evs).main_phrases).length =
      evs.countP isPhraseStartEv := by
  show (parse_phrases_from evs).length = _
  rw [parse_phrases_from_length, length_filterMap_startOf]

/-- C5, amended: the concatenated rendering of `main_phrases` is empty iff
the input contains no `PhraseStart` event (the `Display` output of any phrase
begins with `"from "`, so it is empty exactly when there is no phrase, i.e.
no `PhraseStart`; an input made only of `Section`/`OtherLyricEvent` events is
a special case, but inputs with lyrics and no `PhraseStart` also render
empty). -/
theorem c5_amended (evs : List LyricEvent) :
    renderAll (LyricPhraseCollection.new evs).main_phrases = "" ↔
      evs.countP isPhraseStartEv = 0 := by
  constructor
  · intro h
    rw [← new_main_length evs]
    cases hm : (LyricPhraseCollection.new evs).main_phrases with
    | nil => rfl
    | cons p ps => exact absurd (hm ▸ h) (renderAll_cons_ne_empty p ps)
  · intro h
    have hnil : (LyricPhraseCollection.new evs).main_phrases = [] :=
      List.eq_nil_of_length_eq_zero ((new_main_length evs).trans h)
    rw [hnil]
    rfl

theorem filterMap_filter_of_none {α β : Type} (f : α → Option β) (q : α → Bool)
    (hf : ∀ a, q a = false → f a = none) (l : List α) :
    (l.filter q).filterMap f = l.filterMap f := by
  induction l with
  | nil => rfl
  | cons a rest ih =>
    by_cases hq : q a
    · rw [List.filter_cons_of_pos hq]
      cases hfa : f a with
      | none => rw [List.filterMap_cons_none hfa, List.filterMap_cons_none hfa, ih]
      | some b => rw [List.filterMap_cons_some hfa, List.filterMap_cons_some hfa, ih]
    · rw [List.filter_cons_of_neg hq, ih,
        List.filterMap_cons_none (hf a (Bool.eq_false_iff.mpr hq))]

theorem find?_filter_of_imp {α : Type} (p q : α → Bool)
    (h : ∀ a, p a = true → q a = true) (l : List α) :
    (l.filter q).find? p = l.find? p := by
  induction l with
  | nil => rfl
  | cons a rest ih =>
    by_cases hq : q a
    · rw [List.filter_cons_of_pos hq]
      by_cases hp : p a
      · rw [List.find?_cons_of_pos _ hp, List.find?_cons_of_pos _ hp]
      · rw [List.find?_cons_of_neg _ hp, List.find?_cons_of_neg _ hp, ih]
    · have hp : ¬ p a = true := fun hpa => hq (h a hpa)
      rw [List.filter_cons_of_neg hq, ih, List.find?_cons_of_neg _ hp]

theorem mkPhrase_filter_nonDuet (evs : List LyricEvent) (ts : List Nat)
    (i low : Nat) :
    mkPhrase (evs.filter (fun e => !isDuetEv e)) ts i low =
      mkPhrase evs ts i low := by
  have h1 : ((evs.filter (fun e => !isDuetEv e)).filter
        (fun e => inWindow low ts[i + 1]? e.get_timestamp)).filterMap
        toPhraseLyric =
      (evs.filter (fun e => inWindow low ts[i + 1]? e.get_timestamp)).filterMap
        toPhraseLyric := by
    rw [List.filter_comm]
    exact filterMap_filter_of_none toPhraseLyric (fun e => !isDuetEv e)
      (fun a ha => by cases a <;> simp_all [isDuetEv, toPhraseLyric]) _
  have h2 : (evs.filter (fun e => !isDuetEv e)).find?
        (endSearchPred low ts[i + 1]?) =
      evs.find? (endSearchPred low ts[i + 1]?) :=
    find?_filter_of_imp _ _
      (fun a ha => by
        cases a <;> simp_all [endSearchPred, isPhraseEndEv, isDuetEv]) evs
  simp only [mkPhrase, h1, h2]

/-- C6: duet independence.  The duet phrases of any input are exactly the
segmentation of the remapped duet projection (`DuetPhraseStart`,
`DuetPhraseEnd` and `DuetLyric` remapped to their plain counterparts, all
other events dropped), and the main phrases are unchanged when every duet
event is removed from the input: duet events never influence `main_phrases`,
and plain events never influence `duet_phrases`. -/
theorem c6_duet_independence (evs : List LyricEvent) :
    (LyricPhraseCollection.new evs).duet_phrases =
      parse_phrases_from (evs.filterMap duetRemap)
  ∧ (LyricPhraseCollection.new evs).main_phrases =
      (LyricPhraseCollection.new
        (evs.filter (fun e => !isDuetEv e))).main_phrases := by
  refine ⟨rfl, ?_⟩
  show parse_phrases_from evs =
    parse_phrases_from (evs.filter (fun e => !isDuetEv e))
  unfold parse_phrases_from
  rw [filterMap_filter_of_none startOf (fun e => !isDuetEv e)
    (fun a ha => by cases a <;> simp_all [startOf, isDuetEv])]
  simp only [mkPhrase_filter_nonDuet]

theorem mkPhrase_start (evs : List LyricEvent) (ts : List Nat) (i low : Nat) :
    (mkPhrase evs ts i low).start_timestamp = low := rfl

theorem parse_phrases_getElem? (evs : List LyricEvent) (i : Nat)
    (hi2 : i < (evs.filterMap startOf).length) :
    (parse_phrases_from evs)[i]? =
      some (mkPhrase evs (evs.filterMap startOf) i (evs.filterMap startOf)[i]) := by
  simp [parse_phrases_from, List.getElem?_map, List.getElem?_enum,
    List.getElem?_eq_getElem hi2]

theorem parse_phrases_getElem (evs : List LyricEvent) (i : Nat)
    (hi : i < (parse_phrases_from evs).length)
    (hi2 : i < (evs.filterMap startOf).length) :
    (parse_phrases_from evs)[i] =
      mkPhrase evs (evs.filterMap startOf) i (evs.filterMap startOf)[i] := by
  have h := parse_phrases_getElem? evs i hi2
  rw [List.getElem?_eq_getElem hi] at h
  exact Option.some.inj h

theorem mkPhrase_end_le (evs : List LyricEvent) (ts : List Nat)
    (i low hi : Nat) (hhigh : ts[i + 1]? = some hi) :
    (mkPhrase evs ts i low).end_timestamp ≤ hi := by
  simp only [mkPhrase, hhigh]
  cases hf : evs.find? (endSearchPred low (some hi)) with
  | none => simp [hf]
  | some x =>
    simp only [hf]
    have hp := List.find?_some hf
    simp [endSearchPred] at hp
    exact hp.1.1

theorem mkPhrase_lyric_mem (evs : List LyricEvent) (ts : List Nat)
    (i low : Nat) (l : PhraseLyric) (hl : l ∈ (mkPhrase evs ts i low).lyrics) :
    inWindow low ts[i + 1]? l.timestamp = true := by
  simp only [mkPhrase] at hl
  obtain ⟨e, he, hsome⟩ := List.mem_filterMap.mp hl
  obtain ⟨he2, hw⟩ := List.mem_filter.mp he
  cases e <;> simp [toPhraseLyric] at hsome
  case Lyric t x =>
    rw [← hsome]
    exact hw

theorem window_disjoint (ts : List Nat) (hsort : ts.Pairwise (· ≤ ·))
    (i j li lj : Nat) (hij : i < j) (t : Nat)
    (hli : ts[i]? = some li) (hlj : ts[j]? = some lj)
    (h1 : inWindow li ts[i + 1]? t = true)
    (h2 : inWindow lj ts[j + 1]? t = true) : False := by
  obtain ⟨hj, hlj2⟩ := List.getElem?_eq_some.mp hlj
  have hi1 : i + 1 < ts.length := by omega
  rw [List.getElem?_eq_getElem hi1] at h1
  simp [inWindow] at h1 h2
  have hle : ts[i + 1] ≤ ts[j] := by
    rcases Nat.eq_or_lt_of_le (Nat.succ_le_of_lt hij) with heq | hlt
    · subst heq
      exact Nat.le_refl _
    · exact (List.pairwise_iff_getElem.mp hsort) (i + 1) j hi1 hj hlt
  omega

/-- C3 amended: for consecutive phrases, `phrase[i].end_timestamp` never
exceeds `phrase[i+1].start_timestamp` (unconditionally), and, provided the
`PhraseStart` timestamps occur in non-decreasing order, no two distinct
phrases contain lyrics with the same timestamp, so no `Lyric` event is
assigned to two phrases.  Without the ordering proviso the second part fails
(see the counterexample). -/
theorem c3_amended (evs : List LyricEvent) :
    (∀ i (h : i + 1 < ((LyricPhraseCollection.new evs).main_phrases).length),
        (((LyricPhraseCollection.new evs).main_phrases).get
            ⟨i, by omega⟩).end_timestamp ≤
          (((LyricPhraseCollection.new evs).main_phrases).get
            ⟨i + 1, h⟩).start_timestamp)
  ∧ ((evs.filterMap startOf).Pairwise (· ≤ ·) →
      ∀ i j (hi : i < ((LyricPhraseCollection.new evs).main_phrases).length)
        (hj : j < ((LyricPhraseCollection.new evs).main_phrases).length),
        i ≠ j →
        ∀ l1 l2,
          l1 ∈ (((LyricPhraseCollection.new evs).main_phrases).get
            ⟨i, hi⟩).lyrics →
          l2 ∈ (((LyricPhraseCollection.new evs).main_phrases).get
            ⟨j, hj⟩).lyrics →
          l1.timestamp ≠ l2.timestamp) := by
  have hmain : (LyricPhraseCollection.new evs).main_phrases =
      parse_phrases_from evs := rfl
  have hlen : (parse_phrases_from evs).length =
      (evs.filterMap startOf).length := parse_phrases_from_length evs
  constructor
  · intro i h
    simp only [hmain, List.get_eq_getElem] at h ⊢
    have hi1 : i < (parse_phrases_from evs).length := by omega
    have hit : i < (evs.filterMap startOf).length := by omega
    have hit1 : i + 1 < (evs.filterMap startOf).length := by omega
    rw [parse_phrases_getElem evs i hi1 hit,
      parse_phrases_getElem evs (i + 1) h hit1, mkPhrase_start]
    exact mkPhrase_end_le evs _ i _ _ (List.getElem?_eq_getElem hit1)
  · intro hsort i j hi hj hne l1 l2 hm1 hm2 heq
    simp only [hmain, List.get_eq_getElem] at hi hj hm1 hm2
    have hit : i < (evs.filterMap startOf).length := by omega
    have hjt : j < (evs.filterMap startOf).length := by omega
    rw [parse_phrases_getElem evs i hi hit] at hm1
    rw [parse_phrases_getElem evs j hj hjt] at hm2
    have hw1 := mkPhrase_lyric_mem evs _ i _ l1 hm1
    have hw2 := mkPhrase_lyric_mem evs _ j _ l2 hm2
    rw [heq] at hw1
    rcases Nat.lt_or_ge i j with hij | hge
    · exact window_disjoint _ hsort i j _ _ hij l2.timestamp
        (List.getElem?_eq_getElem hit) (List.getElem?_eq_getElem hjt) hw1 hw2
    · have hji : j < i := by omega
      exact window_disjoint _ hsort j i _ _ hji l2.timestamp
        (List.getElem?_eq_getElem hjt) (List.getElem?_eq_getElem hit) hw2 hw1

/-- C7: a `SyncTrack` `TS` line decodes to a `TimeSignature` whose numerator
is the first space-separated field of the content and whose denominator is
`2 ^ n`, `n` being the optional second field; with no second field the
denominator defaults to `2 ^ 2 = 4`.  (The bound `2 ^ n < 2 ^ 32` keeps the
statement inside the non-wrapping range of `u32::pow`.) -/
theorem c7_time_signature (tsStr content : Chars) (timestamp : Nat)
    (hts : parseU32 tsStr = some timestamp) :
    (∀ f0 nu, splitOnP (fun c => c = ' ') content = [f0] →
        parseU32 f0 = some nu →
        decodeTempoLine tsStr ['T', 'S'] content =
          .ok (.TimeSignature timestamp (nu, 4)))
  ∧ (∀ f0 f1 rest nu n,
        splitOnP (fun c => c = ' ') content = f0 :: f1 :: rest →
        parseU32 f0 = some nu → parseU32 f1 = some n → 2 ^ n < 2 ^ 32 →
        decodeTempoLine tsStr ['T', 'S'] content =
          .ok (.TimeSignature timestamp (nu, 2 ^ n))) := by
  constructor
  · intro f0 nu hsplit hnu
    simp [decodeTempoLine, hts, hsplit, hnu]
  · intro f0 f1 rest nu n hsplit hnu hn hlt
    simp [decodeTempoLine, hts, hsplit, hnu, hn, Nat.mod_eq_of_lt hlt]
    exact hlt

theorem c7_time_signature_witness :
    parseU32 "0".data = some 0
  ∧ decodeTempoLine "0".data ['T', 'S'] "6".data =
      .ok (.TimeSignature 0 (6, 4))
  ∧ decodeTempoLine "0".data ['T', 'S'] "6 3".data =
      .ok (.TimeSignature 0 (6, 8)) := by
  refine ⟨by decide, ?_, ?_⟩
  · exact (c7_time_signature "0".data "6".data 0 (by decide)).1 "6".data 6
      (by decide) (by decide)
  · exact (c7_time_signature "0".data "6 3".data 0 (by decide)).2 "6".data
      "3".data [] 6 3 (by decide) (by decide) (by decide) (by decide)

theorem decodeKeyPressLine_no_duration (tsStr content ty : Chars)
    (hty : ty = ['N'] ∨ ty = ['S'])
    (hparse : (parseU32 tsStr).isSome = true)
    (hsplit : splitOnceSpace content = none) :
    decodeKeyPressLine tsStr ty content = .error "No duration found" := by
  obtain ⟨v, hv⟩ := Option.isSome_iff_exists.mp hparse
  rcases hty with rfl | rfl <;> simp [decodeKeyPressLine, hv, hsplit]

theorem collectE_error_of_mem {α β : Type} (f : α → Except String β)
    (x : α) (e : String) (hf : f x = .error e) :
    ∀ l : List α, x ∈ l → ∃ e2, collectE f l = .error e2 := by
  intro l
  induction l with
  | nil => intro h; cases h
  | cons a rest ih =>
    intro hmem
    cases hfa : f a with
    | error e3 => exact ⟨e3, by simp [collectE, hfa]⟩
    | ok b =>
      cases hmem with
      | head => rw [hf] at hfa; cases hfa
      | tail _ hmem2 =>
        obtain ⟨e2, he2⟩ := ih hmem2
        exact ⟨e2, by simp [collectE, hfa, he2, Except.map]⟩

theorem sectionStep_keypress_error (sec h : Chars)
    (hh : headerFind sec = some h) (h1 : h.asString ≠ "Song")
    (h2 : h.asString ≠ "SyncTrack") (h3 : h.asString ≠ "Events")
    (e : String) (hkp : decodeKeyPressSection sec = .error e) :
    ∀ st, sectionStep st sec = .error e := by
  intro st
  simp [sectionStep, hh, h1, h2, h3, hkp]

theorem runSections_error_of_mem (sec : Chars) (e : String)
    (hsec : ∀ st, sectionStep st sec = .error e) :
    ∀ secs : List Chars, sec ∈ secs →
      ∀ st0, ∃ e2, runSections st0 secs = .error e2 := by
  intro secs
  induction secs with
  | nil => intro h; cases h
  | cons s rest ih =>
    intro hmem st0
    cases hss : sectionStep st0 s with
    | error e3 => exact ⟨e3, by simp [runSections, hss]⟩
    | ok st2 =>
      cases hmem with
      | head => rw [hsec st0] at hss; cases hss
      | tail _ hmem2 =>
        obtain ⟨e2, he2⟩ := ih hmem2 st2
        exact ⟨e2, by simp [runSections, hss, he2]⟩

/-- C9: a key-press line of type `N` or `S` whose content has no second
space-separated field decodes to the distinct `"No duration found"` error
(provided its timestamp parses, which the line regex's `\d+` guarantees up to
overflow), and a chart containing such a line inside a key-press track
section fails to decode as a whole document. -/
theorem c9_no_duration :
    (∀ tsStr content : Chars, (parseU32 tsStr).isSome = true →
        splitOnceSpace content = none →
        decodeKeyPressLine tsStr ['N'] content = .error "No duration found"
      ∧ decodeKeyPressLine tsStr ['S'] content = .error "No duration found")
  ∧ (∀ (file : String) (sec h tsStr ty content : Chars),
        sec ∈ sectionsOf file →
        headerFind sec = some h →
        h.asString ≠ "Song" → h.asString ≠ "SyncTrack" → h.asString ≠ "Events" →
        (tsStr, ty, content) ∈ lineMatches sec →
        (ty = ['N'] ∨ ty = ['S']) →
        (parseU32 tsStr).isSome = true →
        splitOnceSpace content = none →
        ∃ e, chartNew file = .error e) := by
  constructor
  · intro tsStr content hparse hsplit
    exact ⟨decodeKeyPressLine_no_duration tsStr content _ (Or.inl rfl) hparse hsplit,
      decodeKeyPressLine_no_duration tsStr content _ (Or.inr rfl) hparse hsplit⟩
  · intro file sec h tsStr ty content hsecmem hh h1 h2 h3 hmmem hty hparse hsplit
    have hline := decodeKeyPressLine_no_duration tsStr content ty hty hparse hsplit
    obtain ⟨e1, he1⟩ := collectE_error_of_mem
      (fun m => decodeKeyPressLine m.1 m.2.1 m.2.2) (tsStr, ty, content)
      "No duration found" hline (lineMatches sec) hmmem
    have hstep := sectionStep_keypress_error sec h hh h1 h2 h3 e1 he1
    exact runSections_error_of_mem sec e1 hstep (sectionsOf file) hsecmem emptyChart

theorem c9_no_duration_witness :
    decodeKeyPressLine "100".data ['N'] "5".data = .error "No duration found"
  ∧ ∃ e, chartNew c9file = .error e := by
  constructor
  · exact (c9_no_duration.1 "100".data "5".data (by decide) (by decide)).1
  · exact c9_no_duration.2 c9file c9sec "ExpertSingle".data "100".data ['N']
      "5".data (by decide) (by decide) (by decide) (by decide) (by decide)
      (by decide) (Or.inl rfl) (by decide) (by decide)

theorem runSections_accum (name : String)
    (hn1 : name ≠ "Song") (hn2 : name ≠ "SyncTrack") (hn3 : name ≠ "Events") :
    ∀ (secs : List Chars) (st c : RChart),
      runSections st secs = .ok c →
        c.lyrics = st.lyrics ++ flatMapL lyricContrib secs
      ∧ c.tempo_map = st.tempo_map ++ flatMapL tempoContrib secs
      ∧ c.key_presses name =
          (match lastTrackSection name secs with
           | some s => some (exD [] (decodeKeyPressSection s))
           | none => st.key_presses name) := by
  intro secs
  induction secs with
  | nil =>
    intro st c hc
    simp only [runSections] at hc
    injection hc with h4
    subst h4
    exact ⟨by simp [flatMapL], by simp [flatMapL], by simp [lastTrackSection]⟩
  | cons s rest ih =>
    intro st c hc
    simp only [runSections] at hc
    cases hss : sectionStep st s with
    | error e => simp only [hss] at hc; cases hc
    | ok st2 =>
      simp only [hss] at hc
      obtain ⟨hl, ht, hk⟩ := ih st2 c hc
      cases hh : headerFind s with
      | none =>
        simp only [sectionStep, hh] at hss
        have h4 := Except.ok.inj hss
        subst h4
        refine ⟨?_, ?_, ?_⟩
        · rw [hl]; simp [flatMapL, lyricContrib, hh]
        · rw [ht]; simp [flatMapL, tempoContrib, hh]
        · rw [hk]
          cases hlast : lastTrackSection name rest <;>
            simp [lastTrackSection, hlast, isTrackSection, hh]
      | some h =>
        by_cases hSong : h.asString = "Song"
        · simp only [sectionStep, hh, hSong] at hss
          simp only [reduceIte] at hss
          have hst2 := Except.ok.inj hss
          have hst2l : st2.lyrics = st.lyrics := by rw [← hst2]
          have hst2t : st2.tempo_map = st.tempo_map := by rw [← hst2]
          have hst2k : st2.key_presses = st.key_presses := by rw [← hst2]
          have hts : isTrackSection name s = false := by
            simp [isTrackSection, hh, hSong, Ne.symm hn1]
          refine ⟨?_, ?_, ?_⟩
          · rw [hl, hst2l]; simp [flatMapL, lyricContrib, hh, hSong]
          · rw [ht, hst2t]; simp [flatMapL, tempoContrib, hh, hSong]
          · rw [hk]
            cases hlast : lastTrackSection name rest <;>
              simp [lastTrackSection, hlast, hts, hst2k]
        · by_cases hSync : h.asString = "SyncTrack"
          · simp only [sectionStep, hh, hSong, hSync] at hss
            simp only [reduceIte] at hss
            cases hdec : decodeTempoSection s with
            | error e => simp only [hdec] at hss; simp at hss
            | ok l =>
              simp only [hdec] at hss
              have hst2 := Except.ok.inj hss
              have hst2l : st2.lyrics = st.lyrics := by rw [← hst2]
              have hst2t : st2.tempo_map = st.tempo_map ++ l := by rw [← hst2]
              have hst2k : st2.key_presses = st.key_presses := by rw [← hst2]
              have hts : isTrackSection name s = false := by
                simp [isTrackSection, hh, hSync, Ne.symm hn2]
              refine ⟨?_, ?_, ?_⟩
              · rw [hl, hst2l]; simp [flatMapL, lyricContrib, hh, hSync]
              · rw [ht, hst2t]
                simp [flatMapL, tempoContrib, hh, hSync, hdec, exD,
                  List.append_assoc]
              · rw [hk]
                cases hlast : lastTrackSection name rest <;>
                  simp [lastTrackSection, hlast, hts, hst2k]
          · by_cases hEv : h.asString = "Events"
            · simp only [sectionStep, hh, hSong, hSync, hEv] at hss
              simp only [reduceIte] at hss
              cases hdec : decodeLyricSection s with
              | error e => simp only [hdec] at hss; simp at hss
              | ok l =>
                simp only [hdec] at hss
                have hst2 := Except.ok.inj hss
                have hst2l : st2.lyrics = st.lyrics ++ l := by rw [← hst2]
                have hst2t : st2.tempo_map = st.tempo_map := by rw [← hst2]
                have hst2k : st2.key_presses = st.key_presses := by rw [← hst2]
                have hts : isTrackSection name s = false := by
                  simp [isTrackSection, hh, hEv, Ne.symm hn3]
                refine ⟨?_, ?_, ?_⟩
                · rw [hl, hst2l]
                  simp [flatMapL, lyricContrib, hh, hEv, hdec, exD,
                    List.append_assoc]
                · rw [ht, hst2t]; simp [flatMapL, tempoContrib, hh, hEv]
                · rw [hk]
                  cases hlast : lastTrackSection name rest <;>
                    simp [lastTrackSection, hlast, hts, hst2k]
            · simp only [sectionStep, hh, hSong, hSync, hEv] at hss
              simp only [reduceIte] at hss
              cases hdec : decodeKeyPressSection s with
              | error e => simp only [hdec] at hss; simp at hss
              | ok l =>
                simp only [hdec] at hss
                have hst2 := Except.ok.inj hss
                have hst2l : st2.lyrics = st.lyrics := by rw [← hst2]
                have hst2t : st2.tempo_map = st.tempo_map := by rw [← hst2]
                have hst2k : st2.key_presses =
                    hmInsert st.key_presses h.asString l := by rw [← hst2]
                refine ⟨?_, ?_, ?_⟩
                · rw [hl, hst2l]; simp [flatMapL, lyricContrib, hh, hEv]
                · rw [ht, hst2t]; simp [flatMapL, tempoContrib, hh, hSync]
                · rw [hk]
                  by_cases hname : h.asString = name
                  · have hts : isTrackSection name s = true := by
                      simp [isTrackSection, hh, hname]
                    cases hlast : lastTrackSection name rest with
                    | some r => simp [lastTrackSection, hlast]
                    | none =>
                      simp [lastTrackSection, hlast, hts, hst2k, hmInsert,
                        hname, hdec, exD]
                  · have hts : isTrackSection name s = false := by
                      simp [isTrackSection, hh]
                      exact fun hcon => hname hcon
                    cases hlast : lastTrackSection name rest <;>
                      simp [lastTrackSection, hlast, hts, hst2k, hmInsert,
                        Ne.symm hname]

/-- C10: when a chart decodes successfully, its lyric list is the
concatenation, in order, of the decoded events of every `[Events]` section
(a second `[Events]` section appends), its tempo map is likewise the
concatenation over every `[SyncTrack]` section, but for any key-press track
name only the last section with that header survives: a later section with
the same track header replaces the earlier track's entire event list. -/
theorem c10_duplicate_sections (file : String) (c : RChart) (name : String)
    (hok : chartNew file = .ok c)
    (hn1 : name ≠ "Song") (hn2 : name ≠ "SyncTrack") (hn3 : name ≠ "Events") :
    c.lyrics = flatMapL lyricContrib (sectionsOf file)
  ∧ c.tempo_map = flatMapL tempoContrib (sectionsOf file)
  ∧ c.key_presses name =
      (lastTrackSection name (sectionsOf file)).map
        (fun s => exD [] (decodeKeyPressSection s)) := by
  obtain ⟨hl, ht, hk⟩ :=
    runSections_accum name hn1 hn2 hn3 (sectionsOf file) emptyChart c hok
  refine ⟨by simpa [emptyChart] using hl, by simpa [emptyChart] using ht, ?_⟩
  rw [hk]
  cases lastTrackSection name (sectionsOf file) <;> simp [emptyChart]

theorem c10_duplicate_sections_witness :
    c10chart.lyrics = [LyricEvent.PhraseStart 10, LyricEvent.Lyric 30 "la"]
  ∧ c10chart.tempo_map = [TempoEvent.Beat 0 120000, TempoEvent.Beat 7 90000]
  ∧ c10chart.key_presses "ExpertSingle" = some [KeyPressEvent.Note 9 4 3] := by
  have hok : chartNew c10file = .ok c10chart := rfl
  obtain ⟨hl, ht, hk⟩ := c10_duplicate_sections c10file c10chart "ExpertSingle"
    hok (by decide) (by decide) (by decide)
  refine ⟨?_, ?_, ?_⟩
  · rw [hl]; decide
  · rw [ht]; decide
  · rw [hk]; decide

theorem c3_amended_witness :
    (((LyricPhraseCollection.new c3wevs).main_phrases).get
        ⟨0, by decide⟩).end_timestamp ≤
      (((LyricPhraseCollection.new c3wevs).main_phrases).get
        ⟨1, by decide⟩).start_timestamp
  ∧ (⟨3, "a"⟩ : PhraseLyric).timestamp ≠ (⟨7, "b"⟩ : PhraseLyric).timestamp := by
  constructor
  · have h := (c3_amended c3wevs).1 0 (by decide)
    simpa [List.get_eq_getElem] using h
  · exact (c3_amended c3wevs).2 (by decide) 0 1 (by decide) (by decide)
      (by decide) ⟨3, "a"⟩ ⟨7, "b"⟩ (by decide) (by decide)
